import Mathlib

/-!
Verification development for the halfzee midpoint finder.

The embedded code comes from:
* `src/utils/mapUtils.ts` — `getDirections`, `findEquidistantPoint`,
  `clearMapElements`, `drawRoute`;
* `src/components/map/MapRouting.tsx` — the variant of `drawRoute` that
  removes the existing route layer and source before adding the new ones;
* `src/components/map/MarkerManager.tsx` — `findMidpoint`, `clearPOIMarkers`,
  `findNearbyPOIs`.

Modelling decisions:
* JavaScript numbers are modelled as exact rationals (`ℚ`); durations returned
  by the Mapbox directions API are rationals, and `Math.abs` is `|·|`.
* A Mapbox directions response is either `null` (network failure, modelled as
  `none`) or a JSON object with a `routes` array; `data?.routes[0]?.duration || 0`
  becomes `legDuration`.
* JavaScript exceptions (a `TypeError` from reading a property of `undefined`,
  and the errors Mapbox GL throws from `addSource`/`addLayer` on a duplicate
  id) are modelled with `Except`/an explicit error component.
* `Array.prototype.sort` with the comparator
  `(a, b) => a.timeDifference - b.timeDifference` is required by the ECMAScript
  specification to be a stable sort; for a total preorder comparator the stably
  sorted permutation is unique, so it is modelled by `List.insertionSort`
  (Mathlib's insertion sort is stable and places earlier elements first on
  ties, exactly like the JS engine's stable sort).
* The map's mutable rendering surface (route source + layer, midpoint marker,
  POI markers) is the record `MapVisualState`; the mapbox-gl mutating calls
  become explicit state-passing functions.
-/

deriving instance DecidableEq for Except

namespace Halfzee

/-- A (longitude, latitude) pair, as carried in the GeoJSON coordinate arrays
the source manipulates (`routeCoordinates: number[][]`, `[point[0], point[1]]`). -/
structure Coordinate where
  lng : ℚ
  lat : ℚ
deriving DecidableEq

/-- One entry of the `routes` array of a Mapbox directions response:
a total `duration` in seconds and a `geometry.coordinates` polyline. -/
structure DirRoute where
  duration : ℚ
  geometry : List Coordinate
deriving DecidableEq

/-- The JSON body of a (successful) Mapbox directions response as the source
reads it: just its `routes` array (possibly empty when no route exists). -/
structure DirectionsResponse where
  routes : List DirRoute
deriving DecidableEq

/-- The Duration Oracle: `getDirections` (src/utils/mapUtils.ts lines 4-19)
returns the parsed JSON `data`, or `null` when the fetch fails (the
`catch` branch); `none` models that `null`. -/
def Oracle : Type := Coordinate → Coordinate → Option DirectionsResponse

/-- JavaScript runtime failures that the embedded code can raise:
`typeError` is the `TypeError` thrown when a property of `undefined` is read
(e.g. `point[0]` where `point` is `undefined`); `duplicateSource` and
`duplicateLayer` are the errors mapbox-gl throws from `map.addSource` /
`map.addLayer` when a source or layer with the same id already exists.
The constructor `invalidRoute` is not produced by any embedded function: it
exists only to state the specification's claimed `InvalidRoute` failure
condition so that the claim can be compared with the code's behaviour. -/
inductive JsError where
  | typeError
  | duplicateSource
  | duplicateLayer
  | invalidRoute
deriving DecidableEq

/-- The duration extraction `data?.routes[0]?.duration || 0`
(src/utils/mapUtils.ts lines 39 and 41): a failed fetch (`null` data) or a
response whose `routes` array is empty yields `0`. -/
def legDuration (data : Option DirectionsResponse) : ℚ :=
  match data with
  | none => 0
  | some d =>
    match d.routes.head? with
    | none => 0
    | some r => r.duration

/-- The per-sampled-point record built in `findEquidistantPoint`
(src/utils/mapUtils.ts lines 43-47). -/
structure Candidate where
  point : Coordinate
  timeDifference : ℚ
  totalTime : ℚ
deriving DecidableEq

/-- The constant `samples = 100` (src/utils/mapUtils.ts line 27). -/
def samples : ℕ := 100

/-- The sampling index `i * totalPoints / samples` in exact arithmetic
(natural division, equal to the rational floor of `(i / samples) *
totalPoints`). The source evaluates `Math.floor((i / samples) * totalPoints)`
(src/utils/mapUtils.ts lines 31-32) in IEEE-754 double precision, embedded
bit-faithfully by `jsSampleIndex` below; the double result can fall one below
this exact value (never above, for JavaScript array lengths), see
`jsSampleIndex_bracket` and the C3 counterexample. This exact version is kept
for the resolver embedding at the places where only length, boundedness or
membership of the samples matter — properties that hold under both semantics
— or where the two index sequences provably coincide on the concrete routes
used (`jsSampleIndex_route101`, `jsSampleIndex_demoRoute`,
`jsSampleIndex_n_zero`). -/
def sampleIndices (totalPoints : ℕ) : List ℕ :=
  (List.range samples).map (fun i => i * totalPoints / samples)

/-- The sampled points `sampledPoints.push(routeCoordinates[index])`
(src/utils/mapUtils.ts line 33), over the exact-arithmetic indices (see the
caveat on `sampleIndices`). A JavaScript out-of-bounds read yields
`undefined`, modelled by `none` from `routeCoordinates[index]?`. -/
def sampledPointsOf (routeCoordinates : List Coordinate) : List (Option Coordinate) :=
  (sampleIndices routeCoordinates.length).map (fun index => routeCoordinates[index]?)

/-- Fuel-based binary logarithm (structurally recursive so that the kernel
can evaluate it): for `n ≥ 1`, `2 ^ log2fuel fuel n ≤ n < 2 ^ (log2fuel fuel
n + 1)` whenever `fuel ≥ n`. -/
def log2fuel : ℕ → ℕ → ℕ
  | 0, _ => 0
  | fuel + 1, n => if n < 2 then 0 else log2fuel fuel (n / 2) + 1

/-- Binary logarithm (floor), kernel-evaluable. -/
def natLog2 (n : ℕ) : ℕ := log2fuel n n

/-- Round the rational `a / b` to the nearest integer, ties to even — the
IEEE-754 default rounding direction. -/
def roundNearestEven (a b : ℕ) : ℕ :=
  if 2 * (a % b) < b then a / b
  else if b < 2 * (a % b) then a / b + 1
  else if a / b % 2 = 0 then a / b else a / b + 1

/-- Round the natural number `p` to 53 significant bits, nearest-even: the
value of the IEEE-754 binary64 number nearest to `p` (no overflow below
`2 ^ 1024`). Numbers under `2 ^ 53` are exactly representable. -/
def round53 (p : ℕ) : ℕ :=
  if p < 2 ^ 53 then p
  else roundNearestEven p (2 ^ (natLog2 p + 1 - 53)) * 2 ^ (natLog2 p + 1 - 53)

/-- The IEEE-754 binary64 value of `i / 100` as a pair `(M, E)` with value
`M / 2 ^ E`: `E` places the quotient's 53-bit mantissa window
(`2 ^ 52 ≤ i * 2 ^ E / 100 < 2 ^ 53`) and `M` is the correctly rounded
(nearest-even) mantissa. For `i = 0` the value is `(0, 0)`, i.e. `0.0`.
This is the exact semantics of the JavaScript division `i / samples` with
`samples = 100` for `0 ≤ i < 100` (all quotients are normal doubles). -/
def fpDiv100 (i : ℕ) : ℕ × ℕ :=
  match (List.range 60).find?
      (fun E => decide (100 * 2 ^ 52 ≤ i * 2 ^ E ∧ i * 2 ^ E < 100 * 2 ^ 53)) with
  | some E => (roundNearestEven (i * 2 ^ E) 100, E)
  | none => (0, 0)

/-- The IEEE-754 double-precision evaluation of
`Math.floor((i / samples) * totalPoints)` exactly as the source performs it
(src/utils/mapUtils.ts line 32): `i / 100` is the double `M / 2 ^ E`
(`fpDiv100`); the multiplication by the exactly-representable integer
`totalPoints` rounds the mantissa product `M * totalPoints` to 53 bits
(`round53`) while the power-of-two scale `2 ^ E` stays exact; `Math.floor`
of the result `round53 (M * totalPoints) / 2 ^ E` is natural division. -/
def jsSampleIndex (i totalPoints : ℕ) : ℕ :=
  round53 ((fpDiv100 i).1 * totalPoints) / 2 ^ (fpDiv100 i).2

/-- The index sequence the program actually computes: `jsSampleIndex` for
`i` in `[0, samples)`. -/
def jsSampleIndices (totalPoints : ℕ) : List ℕ :=
  (List.range samples).map (fun i => jsSampleIndex i totalPoints)

/-- The sampled points under the bit-faithful double-precision indices. -/
def jsSampledPointsOf (routeCoordinates : List Coordinate) : List (Option Coordinate) :=
  (jsSampleIndices routeCoordinates.length).map (fun index => routeCoordinates[index]?)

/-- The candidate record built for one sampled `point`
(src/utils/mapUtils.ts lines 38-47): two oracle queries (start→point and
point→end), each degraded to `0` via `legDuration` when it fails, then
`timeDifference = Math.abs(startTime - endTime)` and
`totalTime = startTime + endTime`. -/
def mkCand (oracle : Oracle) (startLocation endLocation point : Coordinate) : Candidate :=
  let startTime := legDuration (oracle startLocation point)
  let endTime := legDuration (oracle point endLocation)
  { point := point
    timeDifference := |startTime - endTime|
    totalTime := startTime + endTime }

/-- Evaluation of one entry of `sampledPoints`: when the entry is `undefined`
(an out-of-bounds sample from an empty route), the body's `point[0]` read
throws a `TypeError`, which rejects the whole `Promise.all`
(src/utils/mapUtils.ts lines 36-49). -/
def evalCandidate (oracle : Oracle) (startLocation endLocation : Coordinate) :
    Option Coordinate → Except JsError Candidate
  | none => Except.error JsError.typeError
  | some point => Except.ok (mkCand oracle startLocation endLocation point)

/-- The `travelTimes` array produced by `await Promise.all(sampledPoints.map ...)`
(src/utils/mapUtils.ts lines 36-49): a wait-all barrier, so a thrown
`TypeError` rejects the whole computation. -/
def travelTimesOf (oracle : Oracle) (routeCoordinates : List Coordinate)
    (startLocation endLocation : Coordinate) : Except JsError (List Candidate) :=
  (sampledPointsOf routeCoordinates).mapM (evalCandidate oracle startLocation endLocation)

/-- JavaScript truthiness of a candidate record, as tested by
`.filter(Boolean)` (src/utils/mapUtils.ts line 52): an object is always
truthy, so the filter keeps every candidate. -/
def jsTruthy (_ : Candidate) : Bool := true

/-- The comparator `(a, b) => a.timeDifference - b.timeDifference`
(src/utils/mapUtils.ts line 53), read as the total preorder it induces. -/
def candLE (a b : Candidate) : Prop := a.timeDifference ≤ b.timeDifference

instance : DecidableRel candLE := fun a b =>
  inferInstanceAs (Decidable (a.timeDifference ≤ b.timeDifference))

/-- The selection `travelTimes.filter(Boolean).sort((a, b) => a.timeDifference
- b.timeDifference)[0]` (src/utils/mapUtils.ts lines 51-53): a stable sort by
`timeDifference` followed by taking the first element (`none` models the
`undefined` of `[0]` on an empty array). -/
def selectBest (travelTimes : List Candidate) : Option Candidate :=
  (List.insertionSort candLE (travelTimes.filter jsTruthy)).head?

/-- The resolver `findEquidistantPoint` (src/utils/mapUtils.ts lines 21-56).
`return bestPoint?.point || null` becomes `Option.map Candidate.point`:
a coordinate array is always truthy, so `|| null` only applies when
`bestPoint` is `undefined`. -/
def findEquidistantPoint (oracle : Oracle) (routeCoordinates : List Coordinate)
    (startLocation endLocation : Coordinate) : Except JsError (Option Coordinate) :=
  match travelTimesOf oracle routeCoordinates startLocation endLocation with
  | Except.error e => Except.error e
  | Except.ok travelTimes => Except.ok (Option.map Candidate.point (selectBest travelTimes))

/-- The map's visible rendering surface: the `route` GeoJSON source, the
`route` line layer, the midpoint marker and the POI marker set. -/
structure MapVisualState where
  routeSource : Option (List Coordinate)
  routeLayer : Bool
  midpointMarker : Option Coordinate
  poiMarkers : List Coordinate
deriving DecidableEq

/-- A map with nothing drawn on it. -/
def emptyState : MapVisualState :=
  { routeSource := none, routeLayer := false, midpointMarker := none, poiMarkers := [] }

/-- The helper `clearMapElements(map, currentMarker)`
(src/utils/mapUtils.ts lines 58-69): remove the `route` layer if present,
the `route` source if present, and the current midpoint marker if any.
It does not touch the POI markers. -/
def clearMapElements (st : MapVisualState) : MapVisualState :=
  let st1 := if st.routeLayer then { st with routeLayer := false } else st
  let st2 := if st1.routeSource.isSome then { st1 with routeSource := none } else st1
  if st2.midpointMarker.isSome then { st2 with midpointMarker := none } else st2

/-- The helper `clearPOIMarkers` (src/components/map/MarkerManager.tsx
lines 23-26): remove every POI marker. -/
def clearPOIMarkers (st : MapVisualState) : MapVisualState :=
  { st with poiMarkers := [] }

/-- The mapbox-gl call `map.addSource('route', ...)`: throws when a source
with id `route` already exists. -/
def addRouteSource (st : MapVisualState) (coordinates : List Coordinate) :
    MapVisualState × Option JsError :=
  if st.routeSource.isSome then (st, some JsError.duplicateSource)
  else ({ st with routeSource := some coordinates }, none)

/-- The mapbox-gl call `map.addLayer({ id: 'route', ... })`: throws when a
layer with id `route` already exists. -/
def addRouteLayer (st : MapVisualState) : MapVisualState × Option JsError :=
  if st.routeLayer then (st, some JsError.duplicateLayer)
  else ({ st with routeLayer := true }, none)

/-- The helper `drawRoute` of src/utils/mapUtils.ts (lines 71-97): it adds the
`route` source and layer with no prior removal, so it throws when a route is
already drawn. The second component is the error, if one was thrown; the
first component is the state reached when the throw happened. -/
def drawRoute (st : MapVisualState) (coordinates : List Coordinate) :
    MapVisualState × Option JsError :=
  match addRouteSource st coordinates with
  | (st1, some e) => (st1, some e)
  | (st1, none) => addRouteLayer st1

/-- The `drawRoute` of src/components/map/MapRouting.tsx (lines 60-95): it
first removes the existing `route` layer and source if present, then performs
the same `addSource`/`addLayer` sequence as the mapUtils version. -/
def drawRouteMapRouting (st : MapVisualState) (coordinates : List Coordinate) :
    MapVisualState × Option JsError :=
  let st1 := if st.routeLayer then { st with routeLayer := false } else st
  let st2 := if st1.routeSource.isSome then { st1 with routeSource := none } else st1
  drawRoute st2 coordinates

/-- The POI categories searched by `findNearbyPOIs`
(src/components/map/MarkerManager.tsx line 32). -/
inductive POICategory where
  | cafe
  | park
  | shopping
deriving DecidableEq

/-- The Places collaborator `searchNearbyPOIs`: returns the (possibly empty)
list of POI coordinates for a category near a point; a network failure is
already absorbed into `[]` by the source's catch branch. -/
def POIOracle : Type := Coordinate → POICategory → List Coordinate

/-- The helper `findNearbyPOIs` (src/components/map/MarkerManager.tsx
lines 28-53): clear the POI markers, query each category in order, and
install one marker per returned POI. -/
def findNearbyPOIs (poiOracle : POIOracle) (st : MapVisualState)
    (coordinates : Coordinate) : MapVisualState :=
  let st1 := clearPOIMarkers st
  { st1 with poiMarkers :=
      ([POICategory.cafe, POICategory.park, POICategory.shopping].map
        (fun category => poiOracle coordinates category)).flatten }

/-- The guard `directionsData?.routes[0]`
(src/components/map/MarkerManager.tsx line 72). -/
def routesHead (directionsData : Option DirectionsResponse) : Option DirRoute :=
  match directionsData with
  | none => none
  | some d => d.routes.head?

/-- The handler `findMidpoint` (src/components/map/MarkerManager.tsx
lines 55-146). `stop` stands for the source's `end` location (a reserved word
in Lean). The body is wrapped in `try/catch`, so a thrown `JsError` leaves the
state reached at the moment of the throw. Note that `clearMapElements` and
`clearPOIMarkers` run before the A→B oracle query. -/
def findMidpoint (oracle : Oracle) (poiOracle : POIOracle)
    (startLoc stopLoc : Option Coordinate) (st : MapVisualState) : MapVisualState :=
  match startLoc, stopLoc with
  | some start, some stop =>
    let st1 := clearMapElements st
    let st2 := clearPOIMarkers st1
    match routesHead (oracle start stop) with
    | none => st2
    | some route0 =>
      let coordinates := route0.geometry
      match drawRoute st2 coordinates with
      | (st3, some _) => st3
      | (st3, none) =>
        match findEquidistantPoint oracle coordinates start stop with
        | Except.error _ => st3
        | Except.ok none => st3
        | Except.ok (some equidistantPoint) =>
          let st4 := { st3 with midpointMarker := some equidistantPoint }
          findNearbyPOIs poiOracle st4 equidistantPoint
  | _, _ => st

/-- Specification-side selection rule, written from the spec's words
("Select the Candidate with minimal timeDifference; on ties, the candidate
appearing earliest in iteration order wins"): the first candidate whose
`timeDifference` is less than or equal to every candidate's. It never reads
`totalTime`. To be compared with `selectBest`, the rule embedded from
the source. -/
def argminFirst (travelTimes : List Candidate) : Option Candidate :=
  travelTimes.find?
    (fun a => travelTimes.all (fun b => decide (a.timeDifference ≤ b.timeDifference)))

/-- An oracle whose every call fails (`getDirections` always returns `null`):
the end-to-end scenario "Duration Oracle always fails". -/
def failOracle : Oracle := fun _ _ => none

/-- A Places collaborator that finds nothing. -/
def poiNone : POIOracle := fun _ _ => []

/-- A tiny concrete route used to instantiate theorems. -/
def demoRoute : List Coordinate := [⟨0, 0⟩, ⟨1, 1⟩]

/-- A concrete prior visual state with a drawn route, a midpoint marker and a
POI marker. -/
def priorState : MapVisualState :=
  { routeSource := some [⟨0, 0⟩, ⟨1, 1⟩]
    routeLayer := true
    midpointMarker := some ⟨2, 2⟩
    poiMarkers := [⟨3, 3⟩] }

/-- The straight-line route of end-to-end scenario 1: 101 evenly spaced
coordinates from (0,0) to (1,1). -/
def route101 : List Coordinate :=
  (List.range 101).map (fun (k : ℕ) => ⟨(k : ℚ) / 100, (k : ℚ) / 100⟩)

/-- The Duration Oracle of end-to-end scenario 1. Every point the resolver
queries in that scenario lies on the diagonal segment from (0,0) to (1,1), and
on that segment the Euclidean distance between two route points is √2 times
the longitude displacement; a duration proportional to Euclidean distance at
constant speed `v` is therefore `c * |Δlng|` with `c = √2 / v > 0`. -/
def lineOracle (c : ℚ) : Oracle :=
  fun a b => some { routes := [{ duration := c * |b.lng - a.lng|, geometry := [] }] }

/-- A route of 101 coordinates whose final coordinate repeats its first one
(a loop-shaped route). -/
def routeLoop : List Coordinate :=
  ⟨0, 0⟩ :: (List.replicate 99 ⟨1, 1⟩ ++ [⟨0, 0⟩])

/-- Helper: the sampled coordinates of a non-empty route, with the
out-of-bounds option removed (every sampled index is in bounds there). -/
def pointsOf (routeCoordinates : List Coordinate) : List Coordinate :=
  (sampleIndices routeCoordinates.length).map (fun j => routeCoordinates.getD j ⟨0, 0⟩)

/-! Basic facts about the sampler. -/

lemma samples_pos : 0 < samples := by norm_num [samples]

lemma mem_sampleIndices_lt {n j : ℕ} (hn : n ≠ 0) (hj : j ∈ sampleIndices n) : j < n := by
  rcases List.mem_map.mp hj with ⟨i, hi, rfl⟩
  have hi' : i < samples := List.mem_range.mp hi
  rw [Nat.div_lt_iff_lt_mul samples_pos]
  calc i * n < samples * n := mul_lt_mul_of_pos_right hi' (Nat.pos_of_ne_zero hn)
  _ = n * samples := Nat.mul_comm _ _

lemma sampleIndices_head (n : ℕ) : (sampleIndices n).head? = some 0 := by
  rw [sampleIndices, List.head?_map, show (List.range samples).head? = some 0 from rfl]
  simp

lemma sampleIndices_length (n : ℕ) : (sampleIndices n).length = samples := by
  simp [sampleIndices]

lemma sampledPointsOf_eq_map_some {route : List Coordinate} (h : route ≠ []) :
    sampledPointsOf route = (pointsOf route).map some := by
  have hn : route.length ≠ 0 := by simpa [List.length_eq_zero] using h
  rw [sampledPointsOf, pointsOf, List.map_map]
  refine List.map_congr_left ?_
  intro j hj
  have hjlt : j < route.length := mem_sampleIndices_lt hn hj
  simp [List.getElem?_eq_getElem hjlt, List.getD_eq_getElem _ _ hjlt]

lemma mapM_evalCandidate (oracle : Oracle) (s e : Coordinate) :
    ∀ ps : List Coordinate,
      (ps.map some).mapM (evalCandidate oracle s e) = Except.ok (ps.map (mkCand oracle s e))
  | [] => rfl
  | p :: ps => by
    rw [List.map_cons, List.mapM_cons, mapM_evalCandidate oracle s e ps]
    rfl

lemma travelTimesOf_ok {route : List Coordinate} (h : route ≠ []) (oracle : Oracle)
    (s e : Coordinate) :
    travelTimesOf oracle route s e = Except.ok ((pointsOf route).map (mkCand oracle s e)) := by
  rw [travelTimesOf, sampledPointsOf_eq_map_some h, mapM_evalCandidate]

lemma findEquidistantPoint_eq_selectBest {route : List Coordinate} (h : route ≠ [])
    (oracle : Oracle) (s e : Coordinate) :
    findEquidistantPoint oracle route s e =
      Except.ok (Option.map Candidate.point
        (selectBest ((pointsOf route).map (mkCand oracle s e)))) := by
  unfold findEquidistantPoint
  rw [travelTimesOf_ok h]

lemma sampleIndex_eq_floor (i n : ℕ) :
    i * n / samples = ⌊((i : ℚ) / (samples : ℚ)) * (n : ℚ)⌋₊ := by
  rw [div_mul_eq_mul_div,
    show ((i : ℚ) * (n : ℚ)) = ((i * n : ℕ) : ℚ) by push_cast; ring,
    Nat.floor_div_nat, Nat.floor_natCast]

lemma sampleIndices_pairwise (n : ℕ) : List.Pairwise (· ≤ ·) (sampleIndices n) := by
  rw [sampleIndices, List.pairwise_map]
  refine List.Pairwise.imp ?_ (List.pairwise_lt_range samples)
  intro a b hab
  exact Nat.div_le_div_right (Nat.mul_le_mul (le_of_lt hab) le_rfl)

/-! Facts about the double-precision sampler embedding `jsSampleIndex`.
The concrete per-i facts below are checked by computation (`decide`) on
the 100 mantissa/exponent pairs of `fpDiv100`. -/

lemma log2fuel_spec : ∀ fuel n, n ≤ fuel → 1 ≤ n →
    2 ^ log2fuel fuel n ≤ n ∧ n < 2 ^ (log2fuel fuel n + 1) := by
  intro fuel
  induction fuel with
  | zero => intro n hle h1; omega
  | succ fuel ih =>
    intro n hle h1
    rw [log2fuel]
    by_cases h2 : n < 2
    · rw [if_pos h2]
      constructor
      · simpa using h1
      · simpa using h2
    · rw [if_neg h2]
      obtain ⟨ha, hb⟩ := ih (n / 2) (by omega) (by omega)
      rw [pow_succ] at hb
      constructor
      · rw [pow_succ]
        omega
      · rw [pow_succ, pow_succ]
        omega

lemma natLog2_spec {n : ℕ} (h1 : 1 ≤ n) :
    2 ^ natLog2 n ≤ n ∧ n < 2 ^ (natLog2 n + 1) :=
  log2fuel_spec n n le_rfl h1

lemma roundNearestEven_eq_div_or (a b : ℕ) :
    roundNearestEven a b = a / b ∨ roundNearestEven a b = a / b + 1 := by
  unfold roundNearestEven
  split_ifs <;> simp

lemma roundNearestEven_bounds (a b : ℕ) (hb : 0 < b) :
    2 * (roundNearestEven a b * b) ≤ 2 * a + b ∧
    2 * a ≤ 2 * (roundNearestEven a b * b) + b := by
  have hmod : a / b * b + a % b = a := Nat.div_add_mod' a b
  have hlt : a % b < b := Nat.mod_lt a hb
  unfold roundNearestEven
  split_ifs with h1 h2 h3 <;> constructor <;>
    (try simp only [Nat.add_mul, Nat.one_mul]) <;> omega

lemma round53_lt (p : ℕ) (h : p < 2 ^ 53) : round53 p = p := by
  rw [round53, if_pos h]

lemma round53_bounds (p : ℕ) :
    round53 p ≤ p + p / 2 ^ 53 ∧ p ≤ round53 p + p / 2 ^ 53 := by
  by_cases h : p < 2 ^ 53
  · rw [round53_lt p h]
    omega
  · have hp1 : 1 ≤ p := by omega
    obtain ⟨hL1, hL2⟩ := natLog2_spec hp1
    have hL53 : 53 ≤ natLog2 p := by
      by_contra hc
      have : p < 2 ^ 53 := lt_of_lt_of_le hL2 (Nat.pow_le_pow_right (by omega) (by omega))
      omega
    rw [round53, if_neg h]
    obtain ⟨hb1, hb2⟩ :=
      roundNearestEven_bounds p (2 ^ (natLog2 p + 1 - 53)) (Nat.pos_pow_of_pos _ (by omega))
    have hhalf : 2 ^ (natLog2 p + 1 - 53) ≤ 2 * (p / 2 ^ 53) := by
      have hsplit : (53 : ℕ) + (natLog2 p - 53) = natLog2 p := by omega
      have hple : 2 ^ 53 * 2 ^ (natLog2 p - 53) ≤ p := by
        rw [← pow_add, hsplit]
        exact hL1
      have hdiv : 2 ^ (natLog2 p - 53) ≤ p / 2 ^ 53 :=
        (Nat.le_div_iff_mul_le (Nat.pos_pow_of_pos _ (by omega))).mpr
          (by rw [Nat.mul_comm]; exact hple)
      calc 2 ^ (natLog2 p + 1 - 53) = 2 * 2 ^ (natLog2 p - 53) := by
            rw [← pow_succ']
            congr 1
            omega
      _ ≤ 2 * (p / 2 ^ 53) := by omega
    omega

lemma factA : ∀ i, i < 100 →
    (fpDiv100 i).1 * (2 ^ 53 + 1) < 2 ^ ((fpDiv100 i).2 + 53) := by decide

lemma factB : ∀ i, i < 100 →
    2 * ((fpDiv100 i).1 * 100) ≤ 2 * (i * 2 ^ (fpDiv100 i).2) + 100 ∧
    2 * (i * 2 ^ (fpDiv100 i).2) ≤ 2 * ((fpDiv100 i).1 * 100) + 100 := by decide

lemma factC : ∀ i, 1 ≤ i → i ≤ 98 →
    (fpDiv100 (i + 1)).2 ≤ (fpDiv100 i).2 ∧
    (fpDiv100 i).1 * (2 ^ 53 + 1) +
        (fpDiv100 (i + 1)).1 * 2 ^ ((fpDiv100 i).2 - (fpDiv100 (i + 1)).2) ≤
      (fpDiv100 (i + 1)).1 * 2 ^ ((fpDiv100 i).2 - (fpDiv100 (i + 1)).2) * 2 ^ 53 := by
  decide

lemma factD : ∀ i, 1 ≤ i → i < 100 → 53 ≤ (fpDiv100 i).2 := by decide

lemma factE : ∀ i, i < 100 → (fpDiv100 i).1 ≤ 2 ^ 53 := by decide

lemma fpDiv100_zero : fpDiv100 0 = (0, 0) := by decide

lemma jsSampleIndex_zero (n : ℕ) : jsSampleIndex 0 n = 0 := by
  rw [jsSampleIndex, fpDiv100_zero]
  simp [round53_lt 0 (by norm_num)]

lemma jsSampleIndex_n_zero (i : ℕ) : jsSampleIndex i 0 = 0 := by
  rw [jsSampleIndex, Nat.mul_zero, round53_lt 0 (by norm_num)]
  simp

lemma mulDiv53_le {M : ℕ} (n : ℕ) (hM : M ≤ 2 ^ 53) : M * n / 2 ^ 53 ≤ n := by
  have h1 : M * n ≤ 2 ^ 53 * n := Nat.mul_le_mul_right n hM
  calc M * n / 2 ^ 53 ≤ 2 ^ 53 * n / 2 ^ 53 := Nat.div_le_div_right h1
  _ = n := Nat.mul_div_cancel_left n (Nat.pos_pow_of_pos _ (by omega))

lemma pow32_lt_two_mul_powE {n E : ℕ} (hn : n < 2 ^ 32) (hD : 53 ≤ E) :
    300 * n < 2 * 2 ^ E := by
  have h61 : 300 * n < 300 * 2 ^ 32 := by omega
  have h62 : (300 : ℕ) * 2 ^ 32 ≤ 2 * 2 ^ 53 := by norm_num
  have h63 : (2 : ℕ) ^ 53 ≤ 2 ^ E := Nat.pow_le_pow_right (by norm_num) hD
  omega

lemma jsSampleIndex_lt {i n : ℕ} (hi : i < samples) (hn : 0 < n) :
    jsSampleIndex i n < n := by
  rcases Nat.eq_zero_or_pos i with rfl | hi1
  · rw [jsSampleIndex_zero]
    exact hn
  have hi' : i < 100 := by simpa [samples] using hi
  obtain ⟨M, E, hME⟩ : ∃ M E, fpDiv100 i = (M, E) := ⟨_, _, rfl⟩
  have hA : M * (2 ^ 53 + 1) < 2 ^ (E + 53) := by
    have := factA i hi'
    rwa [hME] at this
  rw [jsSampleIndex, hME]
  rw [Nat.div_lt_iff_lt_mul (Nat.pos_pow_of_pos _ (by omega))]
  have hkey : 2 ^ 53 * round53 (M * n) < 2 ^ 53 * (n * 2 ^ E) := by
    calc 2 ^ 53 * round53 (M * n)
        ≤ 2 ^ 53 * (M * n + M * n / 2 ^ 53) :=
          Nat.mul_le_mul_left _ (round53_bounds (M * n)).1
    _ = 2 ^ 53 * (M * n) + 2 ^ 53 * (M * n / 2 ^ 53) := by ring
    _ ≤ 2 ^ 53 * (M * n) + M * n :=
          Nat.add_le_add_left (Nat.mul_div_le (M * n) (2 ^ 53)) _
    _ = M * (2 ^ 53 + 1) * n := by ring
    _ < 2 ^ (E + 53) * n := (Nat.mul_lt_mul_right hn).mpr hA
    _ = 2 ^ 53 * (n * 2 ^ E) := by rw [pow_add]; ring
  exact Nat.lt_of_mul_lt_mul_left hkey

lemma jsSampleIndex_le_exact {i n : ℕ} (hi : i < samples) (hn : n < 2 ^ 32) :
    jsSampleIndex i n ≤ i * n / samples := by
  rcases Nat.eq_zero_or_pos i with rfl | hi1
  · rw [jsSampleIndex_zero]
    exact Nat.zero_le _
  have hi' : i < 100 := by simpa [samples] using hi
  obtain ⟨M, E, hME⟩ : ∃ M E, fpDiv100 i = (M, E) := ⟨_, _, rfl⟩
  have hB : 2 * (M * 100) ≤ 2 * (i * 2 ^ E) + 100 := by
    have := (factB i hi').1
    rwa [hME] at this
  have hD : 53 ≤ E := by
    have := factD i hi1 hi'
    rwa [hME] at this
  have hMle : M ≤ 2 ^ 53 := by
    have := factE i hi'
    rwa [hME] at this
  have hEpos : (0 : ℕ) < 2 ^ E := Nat.pos_pow_of_pos _ (by omega)
  have hsplit : 100 * (i * n / 100) + i * n % 100 = i * n := Nat.div_add_mod (i * n) 100
  have hrho : i * n % 100 < 100 := Nat.mod_lt (i * n) (by norm_num)
  have h6 : 300 * n < 2 * 2 ^ E := pow32_lt_two_mul_powE hn hD
  have hchain :
      200 * round53 (M * n) < 200 * ((i * n / 100 + 1) * 2 ^ E) := by
    calc 200 * round53 (M * n)
        ≤ 200 * (M * n + M * n / 2 ^ 53) :=
          Nat.mul_le_mul_left _ (round53_bounds (M * n)).1
    _ = 200 * (M * n) + 200 * (M * n / 2 ^ 53) := by ring
    _ ≤ 200 * (M * n) + 200 * n :=
          Nat.add_le_add_left (Nat.mul_le_mul_left _ (mulDiv53_le n hMle)) _
    _ = 2 * (M * 100) * n + 200 * n := by ring
    _ ≤ (2 * (i * 2 ^ E) + 100) * n + 200 * n :=
          Nat.add_le_add_right (Nat.mul_le_mul_right n hB) _
    _ = 2 * (i * n) * 2 ^ E + 300 * n := by ring
    _ = 2 * (100 * (i * n / 100) + i * n % 100) * 2 ^ E + 300 * n := by rw [hsplit]
    _ = 200 * (i * n / 100 * 2 ^ E) + 2 * (i * n % 100) * 2 ^ E + 300 * n := by ring
    _ ≤ 200 * (i * n / 100 * 2 ^ E) + 198 * 2 ^ E + 300 * n := by
          refine Nat.add_le_add_right (Nat.add_le_add_left ?_ _) _
          exact Nat.mul_le_mul_right _ (by omega)
    _ < 200 * (i * n / 100 * 2 ^ E) + 198 * 2 ^ E + 2 * 2 ^ E :=
          Nat.add_lt_add_left h6 _
    _ = 200 * ((i * n / 100 + 1) * 2 ^ E) := by ring
  have hmain : round53 (M * n) < (i * n / 100 + 1) * 2 ^ E :=
    Nat.lt_of_mul_lt_mul_left hchain
  have hdiv : round53 (M * n) / 2 ^ E ≤ i * n / 100 :=
    Nat.lt_succ_iff.mp ((Nat.div_lt_iff_lt_mul hEpos).mpr hmain)
  show jsSampleIndex i n ≤ i * n / 100
  rw [jsSampleIndex, hME]
  exact hdiv

lemma jsSampleIndex_ge_exact {i n : ℕ} (hi : i < samples) (hn : n < 2 ^ 32) :
    i * n / samples ≤ jsSampleIndex i n + 1 := by
  rcases Nat.eq_zero_or_pos i with rfl | hi1
  · simp
  have hi' : i < 100 := by simpa [samples] using hi
  obtain ⟨M, E, hME⟩ : ∃ M E, fpDiv100 i = (M, E) := ⟨_, _, rfl⟩
  have hB : 2 * (i * 2 ^ E) ≤ 2 * (M * 100) + 100 := by
    have := (factB i hi').2
    rwa [hME] at this
  have hD : 53 ≤ E := by
    have := factD i hi1 hi'
    rwa [hME] at this
  have hMle : M ≤ 2 ^ 53 := by
    have := factE i hi'
    rwa [hME] at this
  have hEpos : (0 : ℕ) < 2 ^ E := Nat.pos_pow_of_pos _ (by omega)
  have hsplit : 100 * (i * n / 100) + i * n % 100 = i * n := Nat.div_add_mod (i * n) 100
  have h6 : 300 * n < 2 * 2 ^ E := pow32_lt_two_mul_powE hn hD
  have hchain :
      200 * (i * n / 100 * 2 ^ E) ≤ 200 * (round53 (M * n) + 2 ^ E) := by
    calc 200 * (i * n / 100 * 2 ^ E)
        ≤ 200 * (i * n / 100 * 2 ^ E) + 2 * (i * n % 100) * 2 ^ E :=
          Nat.le_add_right _ _
    _ = 2 * (100 * (i * n / 100) + i * n % 100) * 2 ^ E := by ring
    _ = 2 * (i * n) * 2 ^ E := by rw [hsplit]
    _ = 2 * (i * 2 ^ E) * n := by ring
    _ ≤ (2 * (M * 100) + 100) * n := Nat.mul_le_mul_right n hB
    _ = 200 * (M * n) + 100 * n := by ring
    _ ≤ 200 * (round53 (M * n) + M * n / 2 ^ 53) + 100 * n :=
          Nat.add_le_add_right (Nat.mul_le_mul_left _ (round53_bounds (M * n)).2) _
    _ = 200 * round53 (M * n) + 200 * (M * n / 2 ^ 53) + 100 * n := by ring
    _ ≤ 200 * round53 (M * n) + 200 * n + 100 * n :=
          Nat.add_le_add_right
            (Nat.add_le_add_left (Nat.mul_le_mul_left _ (mulDiv53_le n hMle)) _) _
    _ = 200 * round53 (M * n) + 300 * n := by ring
    _ ≤ 200 * round53 (M * n) + 2 * 2 ^ E := Nat.add_le_add_left (le_of_lt h6) _
    _ ≤ 200 * round53 (M * n) + 200 * 2 ^ E :=
          Nat.add_le_add_left (Nat.mul_le_mul_right _ (by norm_num)) _
    _ = 200 * (round53 (M * n) + 2 ^ E) := by ring
  have hkey : i * n / 100 * 2 ^ E ≤ round53 (M * n) + 2 ^ E :=
    Nat.le_of_mul_le_mul_left hchain (by norm_num)
  have hdivle : i * n / 100 ≤ (round53 (M * n) + 2 ^ E) / 2 ^ E :=
    (Nat.le_div_iff_mul_le hEpos).mpr hkey
  rw [Nat.add_div_right _ hEpos] at hdivle
  show i * n / 100 ≤ _
  rw [jsSampleIndex, hME]
  exact hdivle

lemma jsSampleIndex_mono_adj {i : ℕ} (h1 : 1 ≤ i) (h2 : i ≤ 98) (n : ℕ) :
    jsSampleIndex i n ≤ jsSampleIndex (i + 1) n := by
  obtain ⟨M1, E1, hME1⟩ : ∃ M E, fpDiv100 i = (M, E) := ⟨_, _, rfl⟩
  obtain ⟨M2, E2, hME2⟩ : ∃ M E, fpDiv100 (i + 1) = (M, E) := ⟨_, _, rfl⟩
  have hEle : E2 ≤ E1 := by
    have := (factC i h1 h2).1
    rwa [hME1, hME2] at this
  have hCmain :
      M1 * (2 ^ 53 + 1) + M2 * 2 ^ (E1 - E2) ≤ M2 * 2 ^ (E1 - E2) * 2 ^ 53 := by
    have := (factC i h1 h2).2
    rwa [hME1, hME2] at this
  rw [jsSampleIndex, jsSampleIndex, hME1, hME2]
  have hstep : round53 (M1 * n) ≤ round53 (M2 * n) * 2 ^ (E1 - E2) := by
    have hup2 : 2 ^ 53 * round53 (M1 * n) ≤ M1 * (2 ^ 53 + 1) * n := by
      calc 2 ^ 53 * round53 (M1 * n)
          ≤ 2 ^ 53 * (M1 * n + M1 * n / 2 ^ 53) :=
            Nat.mul_le_mul_left _ (round53_bounds (M1 * n)).1
      _ = 2 ^ 53 * (M1 * n) + 2 ^ 53 * (M1 * n / 2 ^ 53) := by ring
      _ ≤ 2 ^ 53 * (M1 * n) + M1 * n :=
            Nat.add_le_add_left (Nat.mul_div_le (M1 * n) (2 ^ 53)) _
      _ = M1 * (2 ^ 53 + 1) * n := by ring
    have hlo2 : 2 ^ 53 * (M2 * n) ≤ 2 ^ 53 * round53 (M2 * n) + M2 * n := by
      calc 2 ^ 53 * (M2 * n)
          ≤ 2 ^ 53 * (round53 (M2 * n) + M2 * n / 2 ^ 53) :=
            Nat.mul_le_mul_left _ (round53_bounds (M2 * n)).2
      _ = 2 ^ 53 * round53 (M2 * n) + 2 ^ 53 * (M2 * n / 2 ^ 53) := by ring
      _ ≤ 2 ^ 53 * round53 (M2 * n) + M2 * n :=
            Nat.add_le_add_left (Nat.mul_div_le (M2 * n) (2 ^ 53)) _
    have hassm : 2 ^ 53 * round53 (M1 * n) + M2 * n * 2 ^ (E1 - E2) ≤
        2 ^ 53 * (round53 (M2 * n) * 2 ^ (E1 - E2)) + M2 * n * 2 ^ (E1 - E2) := by
      calc 2 ^ 53 * round53 (M1 * n) + M2 * n * 2 ^ (E1 - E2)
          ≤ M1 * (2 ^ 53 + 1) * n + M2 * n * 2 ^ (E1 - E2) :=
            Nat.add_le_add_right hup2 _
      _ = (M1 * (2 ^ 53 + 1) + M2 * 2 ^ (E1 - E2)) * n := by ring
      _ ≤ M2 * 2 ^ (E1 - E2) * 2 ^ 53 * n := Nat.mul_le_mul_right n hCmain
      _ = 2 ^ 53 * (M2 * n) * 2 ^ (E1 - E2) := by ring
      _ ≤ (2 ^ 53 * round53 (M2 * n) + M2 * n) * 2 ^ (E1 - E2) :=
            Nat.mul_le_mul_right _ hlo2
      _ = 2 ^ 53 * (round53 (M2 * n) * 2 ^ (E1 - E2)) + M2 * n * 2 ^ (E1 - E2) := by
            ring
    have hA : 2 ^ 53 * round53 (M1 * n) ≤ 2 ^ 53 * (round53 (M2 * n) * 2 ^ (E1 - E2)) :=
      Nat.le_of_add_le_add_right hassm
    exact Nat.le_of_mul_le_mul_left hA (Nat.pos_pow_of_pos _ (by omega))
  calc round53 (M1 * n) / 2 ^ E1
      ≤ round53 (M2 * n) * 2 ^ (E1 - E2) / 2 ^ E1 := Nat.div_le_div_right hstep
  _ = round53 (M2 * n) / 2 ^ E2 := by
      have hpow : (2 : ℕ) ^ E1 = 2 ^ E2 * 2 ^ (E1 - E2) := by
        rw [← pow_add]
        congr 1
        omega
      rw [hpow]
      exact Nat.mul_div_mul_right _ _ (Nat.pos_pow_of_pos _ (by omega))

lemma jsSampleIndex_mono (n : ℕ) :
    ∀ j, j ≤ 99 → ∀ i, i ≤ j → jsSampleIndex i n ≤ jsSampleIndex j n := by
  intro j
  induction j with
  | zero =>
    intro _ i hi
    have : i = 0 := by omega
    rw [this]
  | succ j ih =>
    intro hj i hi
    rcases Nat.lt_or_ge i (j + 1) with hlt | hge
    · refine le_trans (ih (by omega) i (by omega)) ?_
      rcases Nat.eq_zero_or_pos j with rfl | hj1
      · rw [jsSampleIndex_zero]
        exact Nat.zero_le _
      · exact jsSampleIndex_mono_adj hj1 (by omega) n
    · have : i = j + 1 := by omega
      rw [this]

lemma jsSampleIndices_pairwise (n : ℕ) :
    List.Pairwise (· ≤ ·) (jsSampleIndices n) := by
  rw [jsSampleIndices, List.pairwise_map]
  refine List.Pairwise.imp_of_mem ?_ (List.pairwise_lt_range samples)
  intro a b ha hb hab
  have hb' : b ≤ 99 := by
    have := List.mem_range.mp hb
    simp only [samples] at this
    omega
  exact jsSampleIndex_mono n b hb' a (by omega)

set_option maxRecDepth 4000 in
/-- On the 101-point scenario route the double-precision indices coincide
with the exact ones (checked by computation), so the exact model used by the
resolver embedding is faithful there. -/
lemma jsSampleIndex_route101 : ∀ i, i < samples → jsSampleIndex i 101 = i * 101 / samples := by
  decide

set_option maxRecDepth 4000 in
/-- On the two-point demo route the double-precision indices coincide with
the exact ones (checked by computation). -/
lemma jsSampleIndex_demoRoute : ∀ i, i < samples → jsSampleIndex i 2 = i * 2 / samples := by
  decide

/-- C3 counterexample: at `i = 58` on a 50-coordinate route the program's
double-precision index `Math.floor((58 / 100) * 50)` evaluates to 28
(`0.58 * 50` is `28.999999999999996` in binary64), while the claim's exact
`floor(58 / 100 * 50)` is 29 — the sampler does not read
`routeCoordinates[floor(i / 100 * totalPoints)]`. -/
theorem claim3_counterexample :
    jsSampleIndex 58 50 = 28 ∧
    ⌊((58 : ℚ) / (samples : ℚ)) * (50 : ℚ)⌋₊ = 29 ∧
    jsSampleIndex 58 50 ≠ ⌊((58 : ℚ) / (samples : ℚ)) * (50 : ℚ)⌋₊ := by
  have h1 : jsSampleIndex 58 50 = 28 := by decide
  have h2 : ⌊((58 : ℚ) / (samples : ℚ)) * (50 : ℚ)⌋₊ = 29 := by
    rw [show ((58 : ℚ)) = (((58 : ℕ)) : ℚ) by norm_num,
      show ((50 : ℚ)) = (((50 : ℕ)) : ℚ) by norm_num, ← sampleIndex_eq_floor]
    decide
  refine ⟨h1, h2, ?_⟩
  rw [h1, h2]
  decide

/-- C3 amended: for every non-empty route (JavaScript array lengths are
below `2 ^ 32`) the sampler produces exactly 100 sampled points; the i-th
sample is `routeCoordinates[jsSampleIndex i totalPoints]`, the IEEE-754
double-precision evaluation of `Math.floor((i / samples) * totalPoints)`,
which equals the exact `floor(i / 100 * totalPoints)` or falls exactly one
below it (never above); the chosen indices are monotonically non-decreasing,
every index is in bounds, and every sampled point is an element of the input
route (duplicates permitted when `totalPoints < 100`). -/
theorem claim3_sampler_float (route : List Coordinate) (h : route ≠ [])
    (hlen : route.length < 2 ^ 32) :
    (jsSampledPointsOf route).length = samples ∧
    (∀ i, i < samples →
      (jsSampledPointsOf route)[i]? = some (route[jsSampleIndex i route.length]?)) ∧
    (∀ i, i < samples →
      jsSampleIndex i route.length ≤ i * route.length / samples ∧
      i * route.length / samples ≤ jsSampleIndex i route.length + 1) ∧
    (∀ j ∈ jsSampleIndices route.length, j < route.length) ∧
    List.Pairwise (· ≤ ·) (jsSampleIndices route.length) ∧
    (∀ p : Coordinate, some p ∈ jsSampledPointsOf route → p ∈ route) := by
  have hn : 0 < route.length := by
    cases route
    · exact absurd rfl h
    · simp
  refine ⟨?_, ?_, ?_, ?_, jsSampleIndices_pairwise route.length, ?_⟩
  · simp [jsSampledPointsOf, jsSampleIndices]
  · intro i hi
    simp [jsSampledPointsOf, jsSampleIndices, List.getElem?_map, List.getElem?_range, hi]
  · intro i hi
    exact ⟨jsSampleIndex_le_exact hi hlen, jsSampleIndex_ge_exact hi hlen⟩
  · intro j hj
    rw [jsSampleIndices] at hj
    rcases List.mem_map.mp hj with ⟨i, hi, rfl⟩
    exact jsSampleIndex_lt (List.mem_range.mp hi) hn
  · intro p hp
    rcases List.mem_map.mp hp with ⟨j, _, hjp⟩
    exact List.getElem?_mem hjp

/-- Witness for C3's amended theorem at a concrete two-point route. -/
theorem claim3_sampler_float_witness :
    (demoRoute ≠ [] ∧ demoRoute.length < 2 ^ 32) ∧
    ((jsSampledPointsOf demoRoute).length = samples ∧
      (∀ i, i < samples →
        (jsSampledPointsOf demoRoute)[i]? =
          some (demoRoute[jsSampleIndex i demoRoute.length]?)) ∧
      (∀ i, i < samples →
        jsSampleIndex i demoRoute.length ≤ i * demoRoute.length / samples ∧
        i * demoRoute.length / samples ≤ jsSampleIndex i demoRoute.length + 1) ∧
      (∀ j ∈ jsSampleIndices demoRoute.length, j < demoRoute.length) ∧
      List.Pairwise (· ≤ ·) (jsSampleIndices demoRoute.length) ∧
      (∀ p : Coordinate, some p ∈ jsSampledPointsOf demoRoute → p ∈ demoRoute)) :=
  ⟨⟨by simp [demoRoute], by norm_num [demoRoute]⟩,
    claim3_sampler_float demoRoute (by simp [demoRoute]) (by norm_num [demoRoute])⟩

/-- C5: a failed Duration Oracle sub-query (a `null` response) and a response
with no usable route both degrade to a leg duration of `0`; for every oracle
and non-empty route the candidate evaluation succeeds over all 100 sampled
candidates, never raising an error. -/
theorem claim5_degrade (oracle : Oracle) (route : List Coordinate) (s e : Coordinate)
    (h : route ≠ []) :
    legDuration none = 0 ∧
    legDuration (some { routes := [] }) = 0 ∧
    travelTimesOf oracle route s e = Except.ok ((pointsOf route).map (mkCand oracle s e)) ∧
    ((pointsOf route).map (mkCand oracle s e)).length = samples := by
  refine ⟨rfl, rfl, travelTimesOf_ok h oracle s e, ?_⟩
  simp [pointsOf, sampleIndices]

/-- Witness for C5: the always-failing oracle on a concrete route. -/
theorem claim5_degrade_witness :
    demoRoute ≠ [] ∧
    (legDuration none = 0 ∧
      legDuration (some { routes := [] }) = 0 ∧
      travelTimesOf failOracle demoRoute ⟨0, 0⟩ ⟨1, 1⟩ =
        Except.ok ((pointsOf demoRoute).map (mkCand failOracle ⟨0, 0⟩ ⟨1, 1⟩)) ∧
      ((pointsOf demoRoute).map (mkCand failOracle ⟨0, 0⟩ ⟨1, 1⟩)).length = samples) :=
  ⟨by simp [demoRoute], claim5_degrade failOracle demoRoute ⟨0, 0⟩ ⟨1, 1⟩ (by simp [demoRoute])⟩

/-! The empty-route behaviour. -/

lemma sampledPointsOf_nil : sampledPointsOf ([] : List Coordinate) = List.replicate samples none := by
  rw [sampledPointsOf, List.eq_replicate_iff]
  refine ⟨by simp [sampleIndices], ?_⟩
  intro b hb
  rcases List.mem_map.mp hb with ⟨i, _, rfl⟩
  simp

lemma travelTimesOf_nil (oracle : Oracle) (s e : Coordinate) :
    travelTimesOf oracle [] s e = Except.error JsError.typeError := by
  rw [travelTimesOf, sampledPointsOf_nil, show samples = 99 + 1 from rfl,
    List.replicate_succ, List.mapM_cons]
  rfl

lemma findEquidistantPoint_nil (oracle : Oracle) (s e : Coordinate) :
    findEquidistantPoint oracle [] s e = Except.error JsError.typeError := by
  unfold findEquidistantPoint
  rw [travelTimesOf_nil]

/-- C7 counterexample: on the empty route the resolver fails with the
`TypeError` raised by dereferencing an out-of-bounds (undefined) sample, not
with the specification's claimed `InvalidRoute` condition. -/
theorem claim7_counterexample :
    findEquidistantPoint failOracle [] ⟨0, 0⟩ ⟨1, 1⟩ = Except.error JsError.typeError ∧
    (Except.error JsError.typeError : Except JsError (Option Coordinate)) ≠
      Except.error JsError.invalidRoute := by
  exact ⟨findEquidistantPoint_nil failOracle _ _, by simp⟩

/-- C7 amended: if `routeCoordinates` is empty, every sampled entry is an
out-of-bounds read (`undefined`), and the resolver fails by throwing a
`TypeError` when dereferencing one — there is no defined `InvalidRoute`
condition; the caller's catch-all `try/catch` absorbs the rejection. -/
theorem claim7_empty_route (oracle : Oracle) (s e : Coordinate) :
    (∀ pt ∈ sampledPointsOf ([] : List Coordinate), pt = none) ∧
    findEquidistantPoint oracle [] s e = Except.error JsError.typeError := by
  refine ⟨?_, findEquidistantPoint_nil oracle s e⟩
  intro pt hpt
  rw [sampledPointsOf_nil] at hpt
  exact List.eq_of_mem_replicate hpt

/-- C8: `clearMapElements` is idempotent on every visual state, and clearing
a map with nothing drawn is a no-op (the operation is total — it cannot
fail). -/
theorem claim8_clear_idempotent :
    (∀ st : MapVisualState, clearMapElements (clearMapElements st) = clearMapElements st) ∧
    clearMapElements emptyState = emptyState := by
  refine ⟨?_, rfl⟩
  intro st
  obtain ⟨rs, rl, mm, pm⟩ := st
  cases rl <;> cases rs <;> cases mm <;> rfl

/-! The stable sort and the first-minimum selection rule. -/

lemma head?_orderedInsert (a : Candidate) (s : List Candidate) :
    (List.orderedInsert candLE a s).head? =
      some (match s.head? with
            | none => a
            | some b => if candLE a b then a else b) := by
  cases s with
  | nil => rfl
  | cons b t =>
    by_cases hab : candLE a b
    · simp [List.orderedInsert, hab]
    · simp [List.orderedInsert, hab]

lemma insertionSort_head?_eq_argminFirst :
    ∀ l : List Candidate, (List.insertionSort candLE l).head? = argminFirst l := by
  intro l
  induction l with
  | nil => rfl
  | cons a t ih =>
    simp only [List.insertionSort]
    cases hS : List.insertionSort candLE t with
    | nil =>
      have ht : t = [] := by
        have hp := List.perm_insertionSort candLE t
        rw [hS] at hp
        exact hp.symm.eq_nil
      subst ht
      simp [argminFirst]
    | cons m rest =>
      have hp : List.Perm (m :: rest) t := by
        have hq := List.perm_insertionSort candLE t
        rwa [hS] at hq
      have hmt : m ∈ t := hp.mem_iff.mp (List.mem_cons_self m rest)
      have hargm : argminFirst t = some m := by rw [← ih, hS]; rfl
      have hargm' :
          t.find? (fun a => t.all fun b => decide (a.timeDifference ≤ b.timeDifference)) =
            some m := by
        rw [← argminFirst]
        exact hargm
      have hmmin : ∀ y ∈ t, m.timeDifference ≤ y.timeDifference := by
        intro y hy
        have hfm := @List.find?_some _
          (fun x : Candidate => t.all fun b => decide (x.timeDifference ≤ b.timeDifference))
          m t hargm'
        exact of_decide_eq_true (List.all_eq_true.mp hfm y hy)
      by_cases hle : candLE a m
      · have hlhs : (List.orderedInsert candLE a (m :: rest)).head? = some a := by
          rw [head?_orderedInsert]
          simp [hle]
        rw [hlhs, argminFirst]
        have hpa : ((a :: t).all fun b => decide (a.timeDifference ≤ b.timeDifference)) = true := by
          rw [List.all_eq_true]
          intro b hb
          rcases List.mem_cons.mp hb with rfl | hbt
          · exact decide_eq_true le_rfl
          · exact decide_eq_true (le_trans hle (hmmin b hbt))
        exact (List.find?_cons_of_pos t hpa).symm
      · have hma : m.timeDifference < a.timeDifference := lt_of_not_le hle
        have hlhs : (List.orderedInsert candLE a (m :: rest)).head? = some m := by
          rw [head?_orderedInsert]
          simp [hle]
        rw [hlhs, argminFirst]
        have hpa : ¬ ((a :: t).all fun b => decide (a.timeDifference ≤ b.timeDifference)) = true := by
          intro hall
          exact hle (of_decide_eq_true
            (List.all_eq_true.mp hall m (List.mem_cons_of_mem a hmt)))
        have hstep :
            List.find?
              (fun x : Candidate =>
                (a :: t).all fun b => decide (x.timeDifference ≤ b.timeDifference))
              (a :: t) =
            List.find?
              (fun x : Candidate =>
                (a :: t).all fun b => decide (x.timeDifference ≤ b.timeDifference))
              t := List.find?_cons_of_neg t hpa
        rw [hstep]
        have hpred :
            (fun x : Candidate =>
              (a :: t).all fun b => decide (x.timeDifference ≤ b.timeDifference)) =
            (fun x : Candidate =>
              t.all fun b => decide (x.timeDifference ≤ b.timeDifference)) := by
          funext x
          rw [List.all_cons]
          by_cases hx : (t.all fun b => decide (x.timeDifference ≤ b.timeDifference)) = true
          · have hxm : x.timeDifference ≤ m.timeDifference :=
              of_decide_eq_true (List.all_eq_true.mp hx m hmt)
            have hxa : x.timeDifference ≤ a.timeDifference :=
              le_of_lt (lt_of_le_of_lt hxm hma)
            rw [hx]
            simp [hxa]
          · rw [Bool.eq_false_iff.mpr hx]
            simp
        rw [hpred, ← argminFirst, hargm]

lemma filter_jsTruthy (l : List Candidate) : l.filter jsTruthy = l :=
  List.filter_eq_self.mpr (fun _ _ => rfl)

lemma selectBest_eq_argminFirst (l : List Candidate) : selectBest l = argminFirst l := by
  rw [selectBest, filter_jsTruthy]
  exact insertionSort_head?_eq_argminFirst l

lemma selectBest_some_min {l : List Candidate} {x : Candidate} (h : selectBest l = some x) :
    x ∈ l ∧ ∀ y ∈ l, x.timeDifference ≤ y.timeDifference := by
  rw [selectBest_eq_argminFirst, argminFirst] at h
  have hfm := @List.find?_some _
    (fun z : Candidate => l.all fun b => decide (z.timeDifference ≤ b.timeDifference))
    x l h
  refine ⟨List.mem_of_find?_eq_some h, fun y hy => ?_⟩
  exact of_decide_eq_true (List.all_eq_true.mp hfm y hy)

lemma selectBest_of_ne_nil {l : List Candidate} (h : l ≠ []) : ∃ x, selectBest l = some x := by
  rw [selectBest, filter_jsTruthy]
  cases hS : List.insertionSort candLE l with
  | nil =>
    exfalso
    have hp := List.perm_insertionSort candLE l
    rw [hS] at hp
    exact h hp.symm.eq_nil
  | cons x rest => exact ⟨x, rfl⟩

/-- C4: the selection embedded from the source (stable sort by
`timeDifference`, take the first element) coincides with the specification's
rule `argminFirst`: the candidate with minimal `timeDifference`, and on
(bit-equal) ties the one appearing earliest in iteration order. `argminFirst`
never reads `totalTime`, so neither does the tie-break. -/
theorem claim4_tie_break (l : List Candidate) : selectBest l = argminFirst l :=
  selectBest_eq_argminFirst l

/-! The fully degraded resolution (every oracle call fails). -/

lemma mkCand_timeDifference_degraded {oracle : Oracle}
    (hdeg : ∀ a b, legDuration (oracle a b) = 0) (s e p : Coordinate) :
    (mkCand oracle s e p).timeDifference = 0 := by
  simp [mkCand, hdeg]

lemma pointsOf_head {route : List Coordinate} (h : route ≠ []) :
    (pointsOf route).head? = route.head? := by
  rw [pointsOf, List.head?_map, sampleIndices_head]
  obtain ⟨x, rs, rfl⟩ := List.exists_cons_of_ne_nil h
  rfl

lemma pointsOf_ne_nil (route : List Coordinate) : pointsOf route ≠ [] := by
  simp [pointsOf, sampleIndices, samples]

lemma resolver_degraded (oracle : Oracle) (hdeg : ∀ a b, legDuration (oracle a b) = 0)
    {route : List Coordinate} (h : route ≠ []) (s e : Coordinate) :
    findEquidistantPoint oracle route s e = Except.ok route.head? := by
  rw [findEquidistantPoint_eq_selectBest h]
  have htd : ∀ c ∈ (pointsOf route).map (mkCand oracle s e), c.timeDifference = 0 := by
    intro c hc
    rcases List.mem_map.mp hc with ⟨p, _, rfl⟩
    exact mkCand_timeDifference_degraded hdeg s e p
  have hne : (pointsOf route).map (mkCand oracle s e) ≠ [] := by
    simp [pointsOf_ne_nil route]
  obtain ⟨c0, rest, hc0⟩ := List.exists_cons_of_ne_nil hne
  have hsel : selectBest ((pointsOf route).map (mkCand oracle s e)) = some c0 := by
    rw [selectBest_eq_argminFirst, argminFirst, hc0]
    refine List.find?_cons_of_pos _ ?_
    rw [List.all_eq_true]
    intro b hb
    have hb0 : c0.timeDifference = 0 := htd c0 (by rw [hc0]; exact List.mem_cons_self _ _)
    have hbz : b.timeDifference = 0 := htd b (by rw [hc0]; exact hb)
    simp [hb0, hbz]
  obtain ⟨x, rs, hroute⟩ := List.exists_cons_of_ne_nil h
  have hx : ((pointsOf route).map (mkCand oracle s e)).head? = some (mkCand oracle s e x) := by
    rw [List.head?_map, pointsOf_head h, hroute]
    rfl
  rw [hc0] at hx
  have hc0x : c0 = mkCand oracle s e x := by
    exact Option.some_injective _ hx
  rw [hsel, hc0x, hroute]
  rfl

/-- C1 amended: when every candidate's durations degrade to zero (for
example because every Duration Oracle call fails), `findEquidistantPoint`
returns the first sampled candidate's coordinate — the route's first
coordinate — rather than `null`; on a non-empty route the candidate list is
never empty and `null` is never returned. -/
theorem claim1_amended (oracle : Oracle) (route : List Coordinate) (s e : Coordinate)
    (hdeg : ∀ a b, legDuration (oracle a b) = 0) (h : route ≠ []) :
    findEquidistantPoint oracle route s e = Except.ok route.head? :=
  resolver_degraded oracle hdeg h s e

/-- C1 counterexample: with the always-failing oracle (every duration
degrades to zero) on a concrete two-point route, the resolver does not
return `null` — it returns the route's first coordinate. -/
theorem claim1_counterexample :
    (∀ a b, legDuration (failOracle a b) = 0) ∧
    findEquidistantPoint failOracle demoRoute ⟨0, 0⟩ ⟨1, 1⟩ ≠ Except.ok none := by
  refine ⟨fun a b => rfl, ?_⟩
  rw [resolver_degraded failOracle (fun a b => rfl) (by simp [demoRoute]) ⟨0, 0⟩ ⟨1, 1⟩]
  simp [demoRoute]

/-- Witness for C1's amended theorem. -/
theorem claim1_witness :
    ((∀ a b, legDuration (failOracle a b) = 0) ∧ demoRoute ≠ []) ∧
    findEquidistantPoint failOracle demoRoute ⟨0, 0⟩ ⟨1, 1⟩ = Except.ok demoRoute.head? :=
  ⟨⟨fun a b => rfl, by simp [demoRoute]⟩,
    claim1_amended failOracle demoRoute ⟨0, 0⟩ ⟨1, 1⟩ (fun a b => rfl) (by simp [demoRoute])⟩

/-! The RouteNotFound path of findMidpoint. -/

lemma findMidpoint_routeFail (oracle : Oracle) (poiOracle : POIOracle) (s e : Coordinate)
    (st : MapVisualState) (hfail : routesHead (oracle s e) = none) :
    findMidpoint oracle poiOracle (some s) (some e) st =
      clearPOIMarkers (clearMapElements st) := by
  simp only [findMidpoint]
  rw [hfail]

/-- C2 amended: when the Duration Oracle returns no route for the A→B leg,
`findMidpoint` aborts before sampling, but only after `clearMapElements` and
`clearPOIMarkers` have already run: the prior `MapVisualState` is cleared
(route line, midpoint marker and POI markers removed), not left untouched. -/
theorem claim2_amended (oracle : Oracle) (poiOracle : POIOracle) (s e : Coordinate)
    (st : MapVisualState) (hfail : routesHead (oracle s e) = none) :
    findMidpoint oracle poiOracle (some s) (some e) st =
      clearPOIMarkers (clearMapElements st) :=
  findMidpoint_routeFail oracle poiOracle s e st hfail

/-- C2 counterexample: with a drawn route, a midpoint marker and a POI marker
on the map and an oracle that finds no A→B route, `findMidpoint` does not
leave the prior state untouched. -/
theorem claim2_counterexample :
    findMidpoint failOracle poiNone (some ⟨0, 0⟩) (some ⟨1, 1⟩) priorState ≠ priorState := by
  rw [findMidpoint_routeFail failOracle poiNone ⟨0, 0⟩ ⟨1, 1⟩ priorState rfl]
  simp [priorState, clearPOIMarkers, clearMapElements]

/-- Witness for C2's amended theorem. -/
theorem claim2_witness :
    routesHead (failOracle ⟨0, 0⟩ ⟨1, 1⟩) = none ∧
    findMidpoint failOracle poiNone (some ⟨0, 0⟩) (some ⟨1, 1⟩) priorState =
      clearPOIMarkers (clearMapElements priorState) :=
  ⟨rfl, claim2_amended failOracle poiNone ⟨0, 0⟩ ⟨1, 1⟩ priorState rfl⟩

/-! The two drawRoute variants. -/

lemma drawRouteMapRouting_spec (st : MapVisualState) (c : List Coordinate) :
    drawRouteMapRouting st c =
      ({ st with routeSource := some c, routeLayer := true }, none) := by
  obtain ⟨rs, rl, mm, pm⟩ := st
  cases rl <;> cases rs <;> rfl

/-- C6 amended: the `drawRoute` of MapRouting.tsx removes the existing route
layer and source before installing the new ones, so drawing twice succeeds
and leaves exactly one route line, showing the most recent coordinates; the
`drawRoute` of mapUtils.ts performs no removal, so its second call throws a
duplicate-source error and leaves the first draw's line in place (its callers
avoid this only by calling `clearMapElements` first). -/
theorem claim6_amended (st : MapVisualState) (c1 c2 : List Coordinate) :
    (drawRouteMapRouting (drawRouteMapRouting st c1).1 c2).2 = none ∧
    (drawRouteMapRouting (drawRouteMapRouting st c1).1 c2).1.routeSource = some c2 ∧
    (drawRouteMapRouting (drawRouteMapRouting st c1).1 c2).1.routeLayer = true := by
  simp [drawRouteMapRouting_spec]

/-- C6 counterexample: calling mapUtils.ts's `drawRoute` twice does not
replace the route line — the second call throws `duplicateSource` and the
active route source still holds the first call's coordinates, which differ
from the second call's. -/
theorem claim6_counterexample :
    (drawRoute (drawRoute emptyState [⟨0, 0⟩]).1 [⟨1, 1⟩]).2 = some JsError.duplicateSource ∧
    (drawRoute (drawRoute emptyState [⟨0, 0⟩]).1 [⟨1, 1⟩]).1.routeSource = some [⟨0, 0⟩] ∧
    some [(⟨0, 0⟩ : Coordinate)] ≠ some [(⟨1, 1⟩ : Coordinate)] := by
  refine ⟨rfl, rfl, by simp⟩

/-! End-to-end scenario 1 (C9). -/

/-- The candidate the resolver builds for sample index `i` in scenario 1. -/
def scenarioCand (c : ℚ) (i : ℕ) : Candidate :=
  mkCand (lineOracle c) ⟨0, 0⟩ ⟨1, 1⟩ ⟨(i : ℚ) / 100, (i : ℚ) / 100⟩

lemma route101_ne_nil : route101 ≠ [] := by
  rw [route101]
  simp [List.range_eq_nil]

lemma route101_length : route101.length = 101 := by
  rw [route101]
  simp

lemma sampleIndex_route101 {i : ℕ} (hi : i < 100) : i * 101 / samples = i := by
  rw [samples]
  omega

lemma pointsOf_route101 :
    pointsOf route101 =
      (List.range samples).map (fun (i : ℕ) => ⟨(i : ℚ) / 100, (i : ℚ) / 100⟩) := by
  rw [pointsOf, route101_length, sampleIndices, List.map_map]
  refine List.map_congr_left ?_
  intro i hi
  have hi' : i < 100 := by simpa [samples] using List.mem_range.mp hi
  have hlt : i < route101.length := by rw [route101_length]; omega
  simp only [Function.comp, sampleIndex_route101 hi']
  rw [List.getD_eq_getElem _ _ hlt]
  simp [route101]

lemma travelTimes_route101 (c : ℚ) :
    travelTimesOf (lineOracle c) route101 ⟨0, 0⟩ ⟨1, 1⟩ =
      Except.ok ((List.range samples).map (scenarioCand c)) := by
  rw [travelTimesOf_ok route101_ne_nil, pointsOf_route101, List.map_map]
  rfl

lemma mkCand_point (oracle : Oracle) (s e p : Coordinate) : (mkCand oracle s e p).point = p := rfl

lemma mkCand_timeDifference_nonneg (oracle : Oracle) (s e p : Coordinate) :
    0 ≤ (mkCand oracle s e p).timeDifference :=
  abs_nonneg _

lemma scenarioCand_timeDifference (c : ℚ) (hc : 0 < c) {i : ℕ} (hi : i ≤ 100) :
    (scenarioCand c i).timeDifference = c * |2 * (i : ℚ) - 100| / 100 := by
  have h1 : (0 : ℚ) ≤ (i : ℚ) / 100 := by positivity
  have h2 : (i : ℚ) / 100 ≤ 1 := by
    rw [div_le_one (by norm_num : (0 : ℚ) < 100)]
    exact_mod_cast hi
  show abs (c * abs ((i : ℚ) / 100 - 0) - c * abs (1 - (i : ℚ) / 100)) =
    c * |2 * (i : ℚ) - 100| / 100
  rw [sub_zero, abs_of_nonneg h1, abs_of_nonneg (by linarith : (0 : ℚ) ≤ 1 - (i : ℚ) / 100),
    show c * ((i : ℚ) / 100) - c * (1 - (i : ℚ) / 100) = c * ((2 * (i : ℚ) - 100) / 100) by ring,
    abs_mul, abs_of_pos hc, abs_div, mul_div_assoc]
  norm_num

lemma scenarioCand_td_eq_zero_iff (c : ℚ) (hc : 0 < c) {i : ℕ} (hi : i ≤ 100) :
    (scenarioCand c i).timeDifference = 0 ↔ i = 50 := by
  rw [scenarioCand_timeDifference c hc hi]
  constructor
  · intro h0
    have hX : |2 * (i : ℚ) - 100| = 0 := by
      by_contra hne
      exact
        (div_ne_zero (mul_ne_zero (ne_of_gt hc) hne) (by norm_num : (100 : ℚ) ≠ 0)) h0
    have h2 : 2 * (i : ℚ) - 100 = 0 := abs_eq_zero.mp hX
    have h3 : (i : ℚ) = 50 := by linarith
    exact_mod_cast h3
  · rintro rfl
    norm_num

lemma scenarioCand_point (c : ℚ) : (scenarioCand c 50).point = ⟨1 / 2, 1 / 2⟩ := by
  show (⟨((50 : ℕ) : ℚ) / 100, ((50 : ℕ) : ℚ) / 100⟩ : Coordinate) = ⟨1 / 2, 1 / 2⟩
  norm_num

/-- C9: on the straight-line route of 101 evenly spaced coordinates from
(0,0) to (1,1), with a Duration Oracle reporting duration proportional to
distance along the route (on this diagonal the Euclidean distance is √2
times the longitude displacement, so any constant speed gives an oracle of
the form `c * |Δlng|` with `c > 0`), the resolver returns the route's
index-50 coordinate (1/2, 1/2) — the exact midpoint — and the winning
candidate's `timeDifference` is exactly 0. -/
theorem claim9_scenario (c : ℚ) (hc : 0 < c) :
    route101[50]? = some ⟨1 / 2, 1 / 2⟩ ∧
    findEquidistantPoint (lineOracle c) route101 ⟨0, 0⟩ ⟨1, 1⟩ =
      Except.ok (some ⟨1 / 2, 1 / 2⟩) ∧
    ∃ best, selectBest ((List.range samples).map (scenarioCand c)) = some best ∧
      best.point = ⟨1 / 2, 1 / 2⟩ ∧ best.timeDifference = 0 := by
  have hLne : (List.range samples).map (scenarioCand c) ≠ [] := by
    simp [samples]
  obtain ⟨best, hbest⟩ := selectBest_of_ne_nil hLne
  obtain ⟨hmem, hmin⟩ := selectBest_some_min hbest
  have h50mem : scenarioCand c 50 ∈ (List.range samples).map (scenarioCand c) :=
    List.mem_map_of_mem _ (List.mem_range.mpr (by norm_num [samples]))
  have h50td : (scenarioCand c 50).timeDifference = 0 :=
    (scenarioCand_td_eq_zero_iff c hc (by norm_num)).mpr rfl
  have hbest_nonneg : 0 ≤ best.timeDifference := by
    rcases List.mem_map.mp hmem with ⟨i, _, rfl⟩
    exact mkCand_timeDifference_nonneg _ _ _ _
  have hbest_le : best.timeDifference ≤ 0 := h50td ▸ hmin _ h50mem
  have hbest_td : best.timeDifference = 0 := le_antisymm hbest_le hbest_nonneg
  have hbest_eq : best = scenarioCand c 50 := by
    rcases List.mem_map.mp hmem with ⟨i, hi, rfl⟩
    have hi' : i ≤ 100 := by
      have := List.mem_range.mp hi
      simp [samples] at this
      omega
    have : i = 50 := (scenarioCand_td_eq_zero_iff c hc hi').mp hbest_td
    rw [this]
  have hpoint : best.point = ⟨1 / 2, 1 / 2⟩ := by
    rw [hbest_eq, scenarioCand_point]
  refine ⟨?_, ?_, best, hbest, hpoint, hbest_td⟩
  · rw [route101]
    rw [List.getElem?_map, List.getElem?_range (by norm_num : (50 : ℕ) < 101)]
    norm_num
  · rw [findEquidistantPoint_eq_selectBest route101_ne_nil]
    have hLeq :
        (pointsOf route101).map (mkCand (lineOracle c) ⟨0, 0⟩ ⟨1, 1⟩) =
          (List.range samples).map (scenarioCand c) := by
      rw [pointsOf_route101, List.map_map]
      rfl
    rw [hLeq, hbest]
    simp [hpoint]

/-- Witness for C9 at speed constant 1. -/
theorem claim9_scenario_witness :
    (0 : ℚ) < 1 ∧
    (route101[50]? = some ⟨1 / 2, 1 / 2⟩ ∧
      findEquidistantPoint (lineOracle 1) route101 ⟨0, 0⟩ ⟨1, 1⟩ =
        Except.ok (some ⟨1 / 2, 1 / 2⟩) ∧
      ∃ best, selectBest ((List.range samples).map (scenarioCand 1)) = some best ∧
        best.point = ⟨1 / 2, 1 / 2⟩ ∧ best.timeDifference = 0) :=
  ⟨by norm_num, claim9_scenario 1 (by norm_num)⟩

/-! The implicit sampling-coverage claim (C10). -/

lemma sampleIndices_lt_pred {n : ℕ} (hn : samples < n) :
    ∀ j ∈ sampleIndices n, j < n - 1 := by
  intro j hj
  rcases List.mem_map.mp hj with ⟨i, hi, rfl⟩
  have hi' : i ≤ 99 := by
    have := List.mem_range.mp hi
    simp [samples] at this
    omega
  have hn' : 100 < n := by simpa [samples] using hn
  rw [Nat.div_lt_iff_lt_mul samples_pos]
  calc i * n ≤ 99 * n := Nat.mul_le_mul hi' le_rfl
  _ < (n - 1) * 100 := by omega
  _ = (n - 1) * samples := by rw [samples]

/-- C10 amended: the sampled candidate list always begins with the route's
first coordinate; when the route has more than 100 coordinates, every
sampled index is strictly below `totalPoints - 1`, so the final index is
never sampled and any resolved midpoint is a coordinate stored at some index
strictly below the last one. (The resolved *value* can still equal the
route's final coordinate when that coordinate also occurs at an earlier,
sampled index — see the counterexample.) -/
theorem claim10_first_last (route : List Coordinate) (oracle : Oracle) (s e p : Coordinate)
    (h1 : route ≠ []) (h2 : samples < route.length)
    (h3 : findEquidistantPoint oracle route s e = Except.ok (some p)) :
    (sampledPointsOf route).head? = some route.head? ∧
    (∀ j ∈ sampleIndices route.length, j < route.length - 1) ∧
    ∃ j, j < route.length - 1 ∧ route[j]? = some p := by
  have hn : route.length ≠ 0 := by simpa [List.length_eq_zero] using h1
  refine ⟨?_, sampleIndices_lt_pred h2, ?_⟩
  · rw [sampledPointsOf, List.head?_map, sampleIndices_head]
    obtain ⟨x, rs, rfl⟩ := List.exists_cons_of_ne_nil h1
    simp
  · rw [findEquidistantPoint_eq_selectBest h1] at h3
    have h4 :
        Option.map Candidate.point
          (selectBest ((pointsOf route).map (mkCand oracle s e))) = some p := by
      injection h3
    rcases Option.map_eq_some'.mp h4 with ⟨best, hbest, hpoint⟩
    have hmem := (selectBest_some_min hbest).1
    rcases List.mem_map.mp hmem with ⟨q, hq, rfl⟩
    rcases List.mem_map.mp hq with ⟨j, hj, rfl⟩
    have hjlt : j < route.length := mem_sampleIndices_lt hn hj
    refine ⟨j, sampleIndices_lt_pred h2 j hj, ?_⟩
    rw [List.getElem?_eq_getElem hjlt, ← hpoint, mkCand_point,
      List.getD_eq_getElem _ _ hjlt]

lemma route101_head : route101.head? = some ⟨0, 0⟩ := by
  rw [route101, show (101 : ℕ) = 100 + 1 from rfl, List.range_succ_eq_map]
  simp

lemma resolver_fail_route101 :
    findEquidistantPoint failOracle route101 ⟨0, 0⟩ ⟨1, 1⟩ = Except.ok (some ⟨0, 0⟩) := by
  rw [resolver_degraded failOracle (fun a b => rfl) route101_ne_nil ⟨0, 0⟩ ⟨1, 1⟩, route101_head]

/-- Witness for C10's amended theorem on the 101-point straight route with
the always-failing oracle (which resolves to the route's first coordinate). -/
theorem claim10_first_last_witness :
    (route101 ≠ [] ∧ samples < route101.length ∧
      findEquidistantPoint failOracle route101 ⟨0, 0⟩ ⟨1, 1⟩ = Except.ok (some ⟨0, 0⟩)) ∧
    ((sampledPointsOf route101).head? = some route101.head? ∧
      (∀ j ∈ sampleIndices route101.length, j < route101.length - 1) ∧
      ∃ j, j < route101.length - 1 ∧ route101[j]? = some ⟨0, 0⟩) :=
  ⟨⟨route101_ne_nil, by simp [route101, samples], resolver_fail_route101⟩,
    claim10_first_last route101 failOracle ⟨0, 0⟩ ⟨1, 1⟩ ⟨0, 0⟩ route101_ne_nil
      (by simp [route101, samples]) resolver_fail_route101⟩

/-- C10 counterexample: on a loop-shaped route of 101 coordinates whose
final coordinate equals its first, the resolver (here with every oracle call
failing) returns exactly the route's final coordinate even though
`totalPoints > 100` — the value-level "never the final point" part of the
claim is false. -/
theorem claim10_counterexample :
    samples < routeLoop.length ∧
    routeLoop.getLast? = some ⟨0, 0⟩ ∧
    findEquidistantPoint failOracle routeLoop ⟨5, 5⟩ ⟨6, 6⟩ = Except.ok (some ⟨0, 0⟩) := by
  refine ⟨?_, ?_, ?_⟩
  · simp [routeLoop, samples]
  · rw [routeLoop,
      show (⟨0, 0⟩ : Coordinate) :: (List.replicate 99 ⟨1, 1⟩ ++ [⟨0, 0⟩]) =
        ((⟨0, 0⟩ : Coordinate) :: List.replicate 99 ⟨1, 1⟩) ++ [⟨0, 0⟩] from rfl,
      List.getLast?_concat]
  · rw [resolver_degraded failOracle (fun a b => rfl) (by simp [routeLoop]) ⟨5, 5⟩ ⟨6, 6⟩]
    rfl

end Halfzee
